import Mathlib

/-!
# CiteKit — verification of the address codec, map model and resolution engine

Shallow embedding of `citekit` (Python).  Strings are modelled as `List Char`
(`Str`), Python `int` as `Int`, Python `float` as `ℚ` (floats are dyadic
rationals; shortest-round-trip `str(float)` is modelled as the exact finite
decimal expansion).  Fallible code returns `Except Str` carrying the source's
error messages.  Filesystem state is passed explicitly.
-/

set_option maxRecDepth 4000

namespace Citekit

/-- Python strings modelled as lists of characters. -/
abbrev Str := List Char

/-- Coerce a Lean string literal to the model's string type. -/
def str (s : String) : Str := s.toList

/-! ## Decimal rendering and parsing of integers (Python `str`/`int`) -/

/-- The character for a decimal digit `d < 10`. -/
def digitChar (d : Nat) : Char := Char.ofNat (48 + d)

/-- Fuel-indexed digit rendering (structural recursion, so that the kernel
can evaluate it); `fuel > n` always suffices. -/
def renderNatAux : Nat → Nat → Str
  | 0, _ => []
  | fuel + 1, n =>
    if n < 10 then [digitChar n]
    else renderNatAux fuel (n / 10) ++ [digitChar (n % 10)]

/-- Decimal digits of a natural number, most significant first
(Python `str(n)` for `n ≥ 0`). -/
def renderNat (n : Nat) : Str := renderNatAux (n + 1) n

theorem renderNatAux_congr : ∀ n f g, n < f → n < g → renderNatAux f n = renderNatAux g n := by
  intro n
  induction n using Nat.strong_induction_on with
  | _ n ih =>
    intro f g hf hg
    match f, g with
    | f' + 1, g' + 1 =>
      simp only [renderNatAux]
      split
      · rfl
      · next h =>
        have hlt : n / 10 < n := Nat.div_lt_self (by omega) (by omega)
        rw [ih (n / 10) hlt f' g' (by omega) (by omega)]

/-- The defining recurrence of `renderNat`. -/
theorem renderNat_eq (n : Nat) :
    renderNat n = if n < 10 then [digitChar n]
      else renderNat (n / 10) ++ [digitChar (n % 10)] := by
  unfold renderNat
  rw [show renderNatAux (n + 1) n = if n < 10 then [digitChar n]
      else renderNatAux n (n / 10) ++ [digitChar (n % 10)] from rfl]
  split
  next => rfl
  next h =>
    have hlt : n / 10 < n := Nat.div_lt_self (by omega) (by omega)
    rw [renderNatAux_congr (n / 10) n (n / 10 + 1) (by omega) (by omega)]

/-- Python `str(i)` for an `int`: optional minus sign then decimal digits. -/
def renderInt (i : Int) : Str :=
  if i < 0 then '-' :: renderNat i.natAbs else renderNat i.natAbs

/-- Numeric value of a decimal digit character, if it is one. -/
def digitVal (c : Char) : Option Nat :=
  if '0' ≤ c ∧ c ≤ '9' then some (c.toNat - 48) else none

/-- Accumulating decimal parse of a digit string; fails on any non-digit. -/
def parseDigits : Str → Nat → Option Nat
  | [], acc => some acc
  | c :: rest, acc =>
    match digitVal c with
    | some d => parseDigits rest (acc * 10 + d)
    | none => none

/-- Parse a non-empty all-digit string (helper for Python `int(s)`). -/
def pyParseNat (s : Str) : Option Nat :=
  match s with
  | [] => none
  | _ => parseDigits s 0

/-- Python `int(s)`: optional sign then non-empty digits.  (Surrounding
whitespace and `_` separators, which never occur in this codebase's inputs,
are not modelled.) -/
def pyParseInt (s : Str) : Option Int :=
  if s = [] then none
  else if s.head? = some '-' then
    match pyParseNat s.tail with
    | some n => some (-(n : Int))
    | none => none
  else if s.head? = some '+' then
    match pyParseNat s.tail with
    | some n => some ((n : Int))
    | none => none
  else
    match pyParseNat s with
    | some n => some ((n : Int))
    | none => none

/-! ## Splitting and joining (Python `str.split` / `str.join`) -/

/-- Python `s.split(sep)` for a one-character separator:
`"".split(",") = [""]`, empty pieces are kept. -/
def splitOnChar (sep : Char) : Str → List Str
  | [] => [[]]
  | c :: rest =>
    if c = sep then [] :: splitOnChar sep rest
    else (c :: (splitOnChar sep rest).headI) :: (splitOnChar sep rest).tail

/-- Python `s.split(sep, 1)` under the guarantee that `sep` occurs in `s`:
the pieces before and after the first occurrence. -/
def splitFirst (sep : Char) (s : Str) : Str × Str :=
  (s.takeWhile (· ≠ sep), (s.dropWhile (· ≠ sep)).tail)

/-- Python `sep.join(pieces)`. -/
def pyJoin (sep : Str) : List Str → Str
  | [] => []
  | [x] => x
  | x :: xs => x ++ sep ++ pyJoin sep xs

/-! ## Basic lemmas about rendering and parsing -/

theorem digitVal_digitChar {d : Nat} (h : d < 10) : digitVal (digitChar d) = some d := by
  interval_cases d <;> decide

theorem digitChar_isDigit {d : Nat} (h : d < 10) : (digitChar d).isDigit = true := by
  interval_cases d <;> decide

theorem renderNat_ne_nil (n : Nat) : renderNat n ≠ [] := by
  rw [renderNat_eq]
  split
  · simp
  · simp

theorem renderNat_digits (n : Nat) : ∀ c ∈ renderNat n, c.isDigit = true := by
  induction n using Nat.strong_induction_on with
  | _ n ih =>
    rw [renderNat_eq]
    split
    · intro c hc
      simp only [List.mem_singleton] at hc
      subst hc
      exact digitChar_isDigit (by omega)
    · intro c hc
      rcases List.mem_append.mp hc with h1 | h2
      · exact ih (n / 10) (Nat.div_lt_self (by omega) (by omega)) c h1
      · simp only [List.mem_singleton] at h2
        subst h2
        exact digitChar_isDigit (Nat.mod_lt _ (by omega))

theorem parseDigits_render (n : Nat) :
    ∀ rest acc, parseDigits (renderNat n ++ rest) acc =
      parseDigits rest (acc * 10 ^ (renderNat n).length + n) := by
  induction n using Nat.strong_induction_on with
  | _ n ih =>
    intro rest acc
    rw [renderNat_eq]
    split
    · next h =>
      simp only [List.cons_append, List.nil_append, parseDigits,
        digitVal_digitChar h, List.length_singleton, pow_one]
      rfl
    · next h =>
      rw [List.append_assoc, ih (n / 10) (Nat.div_lt_self (by omega) (by omega)),
        List.length_append, List.length_singleton]
      simp only [List.cons_append, List.nil_append, parseDigits,
        digitVal_digitChar (Nat.mod_lt n (by omega))]
      have hmod := Nat.div_add_mod n 10
      have heq : (acc * 10 ^ (renderNat (n / 10)).length + n / 10) * 10 + n % 10 =
          acc * 10 ^ ((renderNat (n / 10)).length + 1) + n := by
        rw [pow_succ]
        ring_nf
        omega
      rw [heq]
      rfl

theorem pyParseNat_render (n : Nat) : pyParseNat (renderNat n) = some n := by
  have h0 := parseDigits_render n [] 0
  rw [List.append_nil] at h0
  simp only [parseDigits, zero_mul, zero_add] at h0
  have hne := renderNat_ne_nil n
  rcases hrep : renderNat n with _ | ⟨c, cs⟩
  · exact absurd hrep hne
  · rw [hrep] at h0
    simpa [pyParseNat] using h0

theorem renderNat_head_digit (n : Nat) :
    ∀ c cs, renderNat n = c :: cs → c.isDigit = true := by
  intro c cs h
  exact renderNat_digits n c (h ▸ List.mem_cons_self c cs)

theorem pyParseInt_render (i : Int) : pyParseInt (renderInt i) = some i := by
  unfold renderInt
  split
  · next h =>
    have hstep : pyParseInt ('-' :: renderNat i.natAbs) =
        match pyParseNat (renderNat i.natAbs) with
        | some n => some (-(n : Int))
        | none => none := by
      unfold pyParseInt
      simp
    rw [hstep, pyParseNat_render]
    simp only [Option.some.injEq]
    omega
  · next h =>
    have hne := renderNat_ne_nil i.natAbs
    rcases hrep : renderNat i.natAbs with _ | ⟨c, cs⟩
    · exact absurd hrep hne
    · have hd : c.isDigit = true := renderNat_head_digit _ _ _ hrep
      have hc1 : ¬ c = '-' := by
        intro hc; subst hc; simp [Char.isDigit] at hd
      have hc2 : ¬ c = '+' := by
        intro hc; subst hc; simp [Char.isDigit] at hd
      have hstep : pyParseInt (c :: cs) =
          match pyParseNat (c :: cs) with
          | some n => some ((n : Int))
          | none => none := by
        unfold pyParseInt
        simp [hc1, hc2]
      rw [hstep, ← hrep, pyParseNat_render]
      simp only [Option.some.injEq]
      omega

theorem renderInt_digits_of_nonneg {i : Int} (h : 0 ≤ i) :
    ∀ c ∈ renderInt i, c.isDigit = true := by
  unfold renderInt
  rw [if_neg (by omega : ¬ i < 0)]
  exact renderNat_digits i.natAbs

theorem renderInt_ne_nil (i : Int) : renderInt i ≠ [] := by
  unfold renderInt
  split
  · simp
  · exact renderNat_ne_nil _

/-! ## Lemmas about splitting and joining -/

theorem takeWhile_append_stop {p : Char → Bool} {xs : Str} (hxs : ∀ x ∈ xs, p x)
    {y : Char} (hy : ¬ p y) (ys : Str) : (xs ++ y :: ys).takeWhile p = xs := by
  induction xs with
  | nil => simp [List.takeWhile_cons, hy]
  | cons a l ih =>
    have ha : p a := hxs a (List.mem_cons_self a l)
    simp only [List.cons_append, List.takeWhile_cons, ha, if_true]
    rw [ih (fun x hx => hxs x (List.mem_cons_of_mem a hx))]

theorem dropWhile_append_stop {p : Char → Bool} {xs : Str} (hxs : ∀ x ∈ xs, p x)
    {y : Char} (hy : ¬ p y) (ys : Str) : (xs ++ y :: ys).dropWhile p = y :: ys := by
  induction xs with
  | nil => simp [List.dropWhile_cons, hy]
  | cons a l ih =>
    have ha : p a := hxs a (List.mem_cons_self a l)
    simp only [List.cons_append, List.dropWhile_cons, ha, if_true]
    exact ih (fun x hx => hxs x (List.mem_cons_of_mem a hx))

theorem splitOnChar_ne_nil (sep : Char) (s : Str) : splitOnChar sep s ≠ [] := by
  induction s with
  | nil => simp [splitOnChar]
  | cons c rest ih =>
    simp only [splitOnChar]
    split <;> simp

theorem splitOnChar_no_sep {sep : Char} {s : Str} (h : sep ∉ s) :
    splitOnChar sep s = [s] := by
  induction s with
  | nil => rfl
  | cons c rest ih =>
    have hc : ¬ c = sep := fun hcs => h (hcs ▸ List.mem_cons_self c rest)
    have hrest : sep ∉ rest := fun hr => h (List.mem_cons_of_mem c hr)
    simp only [splitOnChar]
    rw [if_neg hc, ih hrest]
    simp

theorem splitOnChar_cons_sep (sep : Char) (s : Str) :
    splitOnChar sep (sep :: s) = [] :: splitOnChar sep s := by
  simp [splitOnChar]

theorem splitOnChar_append_no_sep {sep : Char} {piece : Str} (h : sep ∉ piece) (rest : Str) :
    splitOnChar sep (piece ++ sep :: rest) =
      piece :: splitOnChar sep rest := by
  induction piece with
  | nil => simp [splitOnChar_cons_sep]
  | cons c l ih =>
    have hc : ¬ c = sep := fun hcs => h (hcs ▸ List.mem_cons_self c l)
    have hl : sep ∉ l := fun hr => h (List.mem_cons_of_mem c hr)
    rw [List.cons_append]
    simp only [splitOnChar]
    rw [if_neg hc, ih hl]
    simp

/-- Splitting undoes joining when no piece contains the separator. -/
theorem splitOnChar_pyJoin {sep : Char} :
    ∀ pieces : List Str, pieces ≠ [] → (∀ piece ∈ pieces, sep ∉ piece) →
      splitOnChar sep (pyJoin [sep] pieces) = pieces := by
  intro pieces
  induction pieces with
  | nil => intro h; exact absurd rfl h
  | cons x xs ih =>
    intro _ hsep
    match xs with
    | [] =>
      exact splitOnChar_no_sep (hsep x (List.mem_cons_self x []))
    | y :: ys =>
      have hx : sep ∉ x := hsep x (List.mem_cons_self x _)
      have hjoin : pyJoin [sep] (x :: y :: ys) = x ++ sep :: pyJoin [sep] (y :: ys) := by
        show x ++ [sep] ++ pyJoin [sep] (y :: ys) = _
        simp
      rw [hjoin, splitOnChar_append_no_sep hx,
        ih (by simp) (fun p hp => hsep p (List.mem_cons_of_mem x hp))]

theorem mem_pyJoin {c : Char} {sep : Str} :
    ∀ {pieces : List Str}, c ∈ pyJoin sep pieces →
      c ∈ sep ∨ ∃ piece ∈ pieces, c ∈ piece := by
  intro pieces
  induction pieces with
  | nil => intro h; exact absurd h (List.not_mem_nil c)
  | cons x xs ih =>
    intro h
    match xs with
    | [] =>
      right
      exact ⟨x, List.mem_cons_self x [], h⟩
    | y :: ys =>
      have hjoin : pyJoin sep (x :: y :: ys) = x ++ sep ++ pyJoin sep (y :: ys) := by
        rfl
      rw [hjoin] at h
      rcases List.mem_append.mp h with h1 | h2
      · rcases List.mem_append.mp h1 with hx | hsep
        · exact Or.inr ⟨x, List.mem_cons_self x _, hx⟩
        · exact Or.inl hsep
      · rcases ih h2 with hs | ⟨p, hp, hcp⟩
        · exact Or.inl hs
        · exact Or.inr ⟨p, List.mem_cons_of_mem x hp, hcp⟩

/-! ## Data model (`citekit/models.py`)

`Location` is the pydantic model: a modality tag plus independent optional
payload fields.  The pydantic class declares **no** cross-field validator, so
any combination of payloads is accepted; the Lean structure mirrors that.
`created_at` (a wall-clock timestamp) is not modelled. -/

/-- The resource modalities (`ResourceType` literal in `models.py`). -/
inductive Modality where
  | document
  | video
  | audio
  | image
  | text
  | virtual
deriving DecidableEq, Repr

/-- `Location`: physical location within a resource (`models.py`).  The
Python field `end` is a Lean keyword and is rendered `end_`. -/
structure Location where
  modality : Modality
  pages : Option (List Int) := none
  lines : Option (Int × Int) := none
  start : Option ℚ := none
  end_ : Option ℚ := none
  bbox : Option (ℚ × ℚ × ℚ × ℚ) := none
  virtual_address : Option Str := none
deriving DecidableEq

/-- `Node`: a concept within a resource, with recursive children. -/
structure NodeM where
  id : Str
  title : Option Str := none
  type_ : Str
  location : Location
  summary : Option Str := none
  children : List NodeM := []

/-! ## Address codec (`citekit/address.py`) -/

/-- A regex `\w` character.  (Python `\w` also matches non-ASCII word
characters; every scheme and identifier in this codebase is ASCII.) -/
def isWordChar (c : Char) : Bool := c.isAlphanum || c = '_'

/-- The `_SCHEME_TO_MODALITY` dictionary. -/
def schemeToModality (s : Str) : Option Modality :=
  if s = str "doc" then some .document
  else if s = str "video" then some .video
  else if s = str "audio" then some .audio
  else if s = str "image" then some .image
  else if s = str "text" then some .text
  else if s = str "virtual" then some .virtual
  else none

/-- The `_MODALITY_TO_SCHEME` dictionary (total: the Python dicts are
bijective, so `build_address`'s "Unknown modality" branch is unreachable). -/
def modalityToScheme : Modality → Str
  | .document => str "doc"
  | .video => str "video"
  | .audio => str "audio"
  | .image => str "image"
  | .text => str "text"
  | .virtual => str "virtual"

/-- Lookup in an association list with Python-`dict` semantics: a later
binding of the same key overwrites an earlier one. -/
def dictGet (k : Str) : List (Str × Str) → Option Str
  | [] => none
  | (k', v) :: rest =>
    match dictGet k rest with
    | some v' => some v'
    | none => if k' = k then some v else none

/-- `dict(part.split("=", 1) for part in fragment.split("&") if "=" in part)`. -/
def fragmentParams (frag : Str) : List (Str × Str) :=
  (splitOnChar '&' frag).filterMap
    (fun part => if '=' ∈ part then some (splitFirst '=' part) else none)

/-- Python `range(a, b)` over `int`. -/
def intRange (a b : Int) : List Int :=
  (List.range (b - a).toNat).map (fun k => a + k)

/-- Python `sorted` on a list of ints.  (`insertionSort` is extensionally
equal to any stable sort on integers.) -/
def sortInts (l : List Int) : List Int := List.insertionSort (· ≤ ·) l

/-- Python `float(s)` restricted to finite decimal literals with an optional
sign (`"12"`, `"-3.5"`, `".5"`, `"5."`).  Exponent notation, `inf`/`nan`,
`_` separators and surrounding whitespace never occur in this codebase's
inputs and are not modelled. -/
def pyParseFloat (s : Str) : Option ℚ :=
  let core : Str → Option ℚ := fun t =>
    let ip := t.takeWhile (·.isDigit)
    let rest := t.drop ip.length
    match rest with
    | [] =>
      if ip = [] then none
      else (parseDigits ip 0).bind (fun a => some ((a : ℚ)))
    | '.' :: fp =>
      if fp.all (·.isDigit) then
        if ip = [] ∧ fp = [] then none
        else
          match parseDigits ip 0, parseDigits fp 0 with
          | some a, some b => some ((a : ℚ) + (b : ℚ) / 10 ^ fp.length)
          | _, _ => none
      else none
    | _ => none
  match s with
  | '-' :: t => (core t).bind (fun v => some (-v))
  | '+' :: t => core t
  | t => core t

/-- `_parse_time`: seconds, `MM:SS`, or `HH:MM:SS`.  (`.strip()` is a no-op
for every caller in this codebase and is not modelled.) -/
def parse_time (time_str : Str) : Except Str ℚ :=
  let floatOf : Str → Except Str ℚ := fun t =>
    match pyParseFloat t with
    | some v => .ok v
    | none => .error (str "could not convert string to float")
  if ':' ∈ time_str then
    match splitOnChar ':' time_str with
    | [h, m, sec] =>
      match pyParseInt h, pyParseInt m, pyParseFloat sec with
      | some hv, some mv, some sv => .ok (hv * 3600 + mv * 60 + sv)
      | _, _, _ => .error (str "invalid time literal")
    | [m, sec] =>
      match pyParseInt m, pyParseFloat sec with
      | some mv, some sv => .ok (mv * 60 + sv)
      | _, _ => .error (str "invalid time literal")
    | _ => floatOf time_str
  else floatOf time_str

/-- Python `int(q)`: truncation toward zero. -/
def pyTrunc (q : ℚ) : Int := q.num.tdiv q.den

/-- Least `k < fuel + k0` with `d ∣ 10 ^ k`, counting up from `k0`.
`(q * 10 ^ k).den = 1` exactly when `q.den ∣ 10 ^ k`, so this finds the
number of digits after the decimal point of a dyadic rational. -/
def leastPow10Den (d : Nat) : Nat → Nat → Option Nat
  | _, 0 => none
  | k, fuel + 1 => if 10 ^ k % d = 0 then some k else leastPow10Den d (k + 1) fuel

/-- Left-pad with `'0'` to width `w`. -/
def leftPadZeros (w : Nat) (s : Str) : Str := List.replicate (w - s.length) '0' ++ s

/-- Python `str(f)` for a float with a finite decimal expansion (every
Python float has one; `str` prints the shortest round-tripping decimal,
which for the decimally-parsed values modelled here is the exact
expansion).  1100 fractional digits cover every IEEE-754 double. -/
def pyFloatRepr (q : ℚ) : Str :=
  match leastPow10Den q.den 0 1101 with
  | some k =>
    (if q.num < 0 then str "-" else []) ++
      renderNat (q.num.natAbs * (10 ^ k / q.den) / 10 ^ k) ++ str "." ++
      leftPadZeros k (renderNat (q.num.natAbs * (10 ^ k / q.den) % 10 ^ k))
  | none => (if q.num < 0 then str "-" else []) ++ renderNat q.num.natAbs

/-- Python `f"{i:02d}"`: zero-pad to width 2. -/
def pad2 (i : Int) : Str :=
  let s := renderInt i
  if 2 ≤ s.length then s else '0' :: s

/-- `_format_time`: `seconds == int(seconds)` holds exactly when the
rational is integral (`den = 1`), in which case Python rebinds `seconds`
to the `int`; only then can the `isinstance(seconds, int)` guards fire. -/
def format_time (seconds : ℚ) : Str :=
  if seconds.den = 1 then
    if 3600 ≤ seconds.num then
      pad2 (seconds.num.fdiv 3600) ++ str ":" ++
        pad2 ((seconds.num.fmod 3600).fdiv 60) ++ str ":" ++ pad2 (seconds.num.fmod 60)
    else if 60 ≤ seconds.num then
      pad2 (seconds.num.fdiv 60) ++ str ":" ++ pad2 (seconds.num.fmod 60)
    else renderInt seconds.num
  else pyFloatRepr seconds

/-- Python `f"{v:g}"` in the no-exponent regime (|v| ∈ [1e-4, 1e6) or 0,
at most 6 significant digits — which covers every bbox value in this
codebase): integral values drop the decimal point, others print their
decimal expansion. -/
def pyFormatG (q : ℚ) : Str :=
  if q.den = 1 then renderInt q.num else pyFloatRepr q

/-- `parse_address` fragment handling for the `pages` parameter. -/
def parsePagesParam (page_str : Str) : Except Str (List Int) :=
  if '-' ∈ page_str then
    let pr := splitFirst '-' page_str
    match pyParseInt pr.1, pyParseInt pr.2 with
    | some a, some b => .ok (intRange a (b + 1))
    | _, _ => .error (str "invalid literal for int() with base 10")
  else
    match (splitOnChar ',' page_str).mapM pyParseInt with
    | some l => .ok l
    | none => .error (str "invalid literal for int() with base 10")

/-- `parse_address` fragment handling for the `lines` parameter.  A value
with a `-` parses as a range; a value with a `,` collapses to
(first, last); a single bare value falls through **without** setting
`lines` (the `len(parts) < 2` arm below is unreachable because a string
containing `,` always splits into at least two parts). -/
def parseLinesParam (lines_str : Str) : Except Str (Option (Int × Int)) :=
  if '-' ∈ lines_str then
    let pr := splitFirst '-' lines_str
    match pyParseInt pr.1, pyParseInt pr.2 with
    | some a, some b => .ok (some (a, b))
    | _, _ => .error (str "invalid literal for int() with base 10")
  else if ',' ∈ lines_str then
    let parts := splitOnChar ',' lines_str
    if 2 ≤ parts.length then
      match pyParseInt parts.headI, pyParseInt (parts.getLastD []) with
      | some a, some b => .ok (some (a, b))
      | _, _ => .error (str "invalid literal for int() with base 10")
    else
      match pyParseInt parts.headI with
      | some a => .ok (some (a, a))
      | none => .error (str "invalid literal for int() with base 10")
  else .ok none

/-- `parse_address` fragment handling for the `t` parameter: only a value
containing `-` sets the interval. -/
def parseTParam (time_str : Str) : Except Str (Option ℚ × Option ℚ) :=
  if '-' ∈ time_str then
    let pr := splitFirst '-' time_str
    match parse_time pr.1 with
    | .error e => .error e
    | .ok s =>
      match parse_time pr.2 with
      | .error e => .error e
      | .ok e => .ok (some s, some e)
  else .ok (none, none)

/-- `parse_address` fragment handling for the `bbox` parameter: exactly 4
comma-separated floats. -/
def parseBboxParam (bbox_str : Str) : Except Str (ℚ × ℚ × ℚ × ℚ) :=
  match splitOnChar ',' bbox_str with
  | [a, b, c, d] =>
    match pyParseFloat a, pyParseFloat b, pyParseFloat c, pyParseFloat d with
    | some x1, some y1, some x2, some y2 => .ok (x1, y1, x2, y2)
    | _, _, _, _ => .error (str "could not convert string to float")
  | other => .error (str "bbox must have 4 values, got " ++ renderNat other.length)

/-- Fragment-parameter processing of `parse_address` (the body of
`if fragment:`). -/
def parseFragment (modality : Modality) (frag : Str) : Except Str Location :=
  let params := fragmentParams frag
  let pagesR : Except Str (Option (List Int)) :=
    match dictGet (str "pages") params with
    | none => .ok none
    | some pstr =>
      match parsePagesParam pstr with
      | .ok l => .ok (some l)
      | .error e => .error e
  match pagesR with
  | .error e => .error e
  | .ok pages =>
    let linesR : Except Str (Option (Int × Int)) :=
      match dictGet (str "lines") params with
      | none => .ok none
      | some lstr => parseLinesParam lstr
    match linesR with
    | .error e => .error e
    | .ok lines =>
      let timesR : Except Str (Option ℚ × Option ℚ) :=
        match dictGet (str "t") params with
        | none => .ok (none, none)
        | some tstr => parseTParam tstr
      match timesR with
      | .error e => .error e
      | .ok times =>
        let bboxR : Except Str (Option (ℚ × ℚ × ℚ × ℚ)) :=
          match dictGet (str "bbox") params with
          | none => .ok none
          | some bstr =>
            match parseBboxParam bstr with
            | .ok bb => .ok (some bb)
            | .error e => .error e
        match bboxR with
        | .error e => .error e
        | .ok bbox =>
          .ok { modality := modality, pages := pages, lines := lines,
                start := times.1, end_ := times.2, bbox := bbox,
                virtual_address := none }

/-- `parse_address` (`address.py`).  The regex
`^(\w+)://([^#]+)(?:#(.+))?$` is realised structurally: a maximal
non-empty `\w+` prefix, the literal `://`, a non-empty resource id up to
the first `#`, and an optional non-empty fragment after it.  (The regex
corner cases around `\n` — `.` not matching it and `$` accepting one
trailing newline — never arise in this codebase and are not modelled.) -/
def parse_address (address : Str) : Except Str (Str × Location) :=
  let scheme := address.takeWhile isWordChar
  match address.dropWhile isWordChar with
  | ':' :: '/' :: '/' :: body =>
    if scheme = [] then .error (str "Invalid CiteKit address: " ++ address)
    else
      let rid := body.takeWhile (· ≠ '#')
      if rid = [] then .error (str "Invalid CiteKit address: " ++ address)
      else
        let fragR : Except Str (Option Str) :=
          match body.dropWhile (· ≠ '#') with
          | [] => .ok none
          | _ :: frag =>
            if frag = [] then .error (str "Invalid CiteKit address: " ++ address)
            else .ok (some frag)
        match fragR with
        | .error e => .error e
        | .ok fragment =>
          match schemeToModality scheme with
          | none => .error (str "Unknown scheme")
          | some modality =>
            if modality = Modality.virtual then
              .ok (rid, { modality := Modality.virtual, virtual_address := some address })
            else
              match fragment with
              | none => .ok (rid, { modality := modality })
              | some frag =>
                match parseFragment modality frag with
                | .ok loc => .ok (rid, loc)
                | .error e => .error e
  | _ => .error (str "Invalid CiteKit address: " ++ address)

/-- The `pages` fragment part of `build_address`: empty list rejected,
consecutive sorted run rendered `first-last` (the guard compares the whole
sorted list against `range(first, last+1)`), otherwise a comma-joined
sorted list. -/
def buildPagesPart : Option (List Int) → Except Str (List Str)
  | none => .ok []
  | some pages =>
    match sortInts pages with
    | [] => .error (str "Pages list cannot be empty")
    | a :: rest =>
      let lastp := (a :: rest).getLastD 0
      if a :: rest = intRange a (lastp + 1) then
        .ok [str "pages=" ++ (renderInt a ++ ('-' :: renderInt lastp))]
      else
        .ok [str "pages=" ++ pyJoin (str ",") ((a :: rest).map renderInt)]

/-- The `lines` fragment part of `build_address`. -/
def buildLinesPart : Option (Int × Int) → List Str
  | none => []
  | some (s, e) => [str "lines=" ++ renderInt s ++ str "-" ++ renderInt e]

/-- The `t` fragment part of `build_address`: emitted only when both
`start` and `end` are set. -/
def buildTimePart : Option ℚ → Option ℚ → List Str
  | some s, some e => [str "t=" ++ format_time s ++ str "-" ++ format_time e]
  | _, _ => []

/-- The `bbox` fragment part of `build_address` (note: no range check). -/
def buildBboxPart : Option (ℚ × ℚ × ℚ × ℚ) → List Str
  | none => []
  | some (x1, y1, x2, y2) =>
    [str "bbox=" ++ pyJoin (str ",") [pyFormatG x1, pyFormatG y1, pyFormatG x2, pyFormatG y2]]

/-- `build_address` (`address.py`).  For the `virtual` modality Python's
`location.virtual_address or f"virtual://{resource_id}"` treats an empty
string as falsy. -/
def build_address (resource_id : Str) (location : Location) : Except Str Str :=
  let scheme := modalityToScheme location.modality
  if location.modality = Modality.virtual then
    let va := location.virtual_address.getD []
    .ok (if va = [] then str "virtual://" ++ resource_id else va)
  else
    match buildPagesPart location.pages with
    | .error e => .error e
    | .ok pagesPart =>
      let fragment_parts := pagesPart ++ buildLinesPart location.lines ++
        buildTimePart location.start location.end_ ++ buildBboxPart location.bbox
      let fragment := pyJoin (str "&") fragment_parts
      if fragment = [] then .ok (scheme ++ str "://" ++ resource_id)
      else .ok (scheme ++ str "://" ++ resource_id ++ str "#" ++ fragment)

/-! ## Round-trip lemmas for the address codec -/

theorem renderInt_not_mem_of_nonneg {i : Int} (hi : 0 ≤ i) {c : Char}
    (hc : c.isDigit = false) : c ∉ renderInt i := by
  intro hmem
  have := renderInt_digits_of_nonneg hi c hmem
  rw [hc] at this
  exact Bool.false_ne_true this

theorem splitFirst_append (sep : Char) (xs ys : Str) (hxs : ∀ c ∈ xs, c ≠ sep) :
    splitFirst sep (xs ++ sep :: ys) = (xs, ys) := by
  unfold splitFirst
  have hxs' : ∀ c ∈ xs, (fun c => decide (c ≠ sep)) c = true := by
    intro c hc
    simpa using hxs c hc
  have hy : ¬ ((fun c => decide (c ≠ sep)) sep = true) := by simp
  rw [takeWhile_append_stop hxs' hy, dropWhile_append_stop hxs' hy]
  rfl

theorem mapM_pyParseInt_render : ∀ l : List Int,
    (l.map renderInt).mapM pyParseInt = some l := by
  intro l
  induction l with
  | nil => rfl
  | cons x xs ih =>
    rw [List.map_cons, List.mapM_cons, pyParseInt_render, ih]
    rfl

theorem getLastD_mem_cons : ∀ (rest : List Int) (a d : Int), (a :: rest).getLastD d ∈ a :: rest := by
  intro rest
  induction rest with
  | nil => intro a d; simp [List.getLastD]
  | cons b t ih =>
    intro a d
    rw [List.getLastD_cons]
    exact List.mem_cons_of_mem a (ih b a)

theorem sortInts_ne_nil {l : List Int} (h : l ≠ []) : sortInts l ≠ [] := by
  intro hs
  have hperm := List.perm_insertionSort (· ≤ ·) l
  rw [show sortInts l = List.insertionSort (· ≤ ·) l from rfl] at hs
  rw [hs] at hperm
  exact h (hperm.nil_eq).symm

theorem mem_of_mem_sortInts {l : List Int} {x : Int} (h : x ∈ sortInts l) : x ∈ l :=
  (List.perm_insertionSort (· ≤ ·) l).subset h

/-- `fragmentParams` of a single `pages=`‑keyed fragment. -/
theorem fragmentParams_pages (body : Str) (hamp : '&' ∉ body) :
    fragmentParams (str "pages=" ++ body) = [(str "pages", body)] := by
  unfold fragmentParams
  have hfrag : '&' ∉ str "pages=" ++ body := by
    intro h
    rcases List.mem_append.mp h with h1 | h2
    · revert h1; decide
    · exact hamp h2
  rw [splitOnChar_no_sep hfrag]
  have hmem : '=' ∈ str "pages=" ++ body :=
    List.mem_append.mpr (Or.inl (by decide))
  rw [List.filterMap_cons]
  have hsplit : splitFirst '=' (str "pages=" ++ body) = (str "pages", body) := by
    have hshape : str "pages=" ++ body = str "pages" ++ '=' :: body := rfl
    rw [hshape]
    exact splitFirst_append '=' (str "pages") body (by decide)
  simp only [if_pos hmem, hsplit]
  rfl

/-- Fragment processing when the only parameter is `pages`. -/
theorem parseFragment_pages_only (modality : Modality) (body : Str)
    (hamp : '&' ∉ body) {l : List Int}
    (hparse : parsePagesParam body = .ok l) :
    parseFragment modality (str "pages=" ++ body) =
      .ok { modality := modality, pages := some l, lines := none, start := none,
            end_ := none, bbox := none, virtual_address := none } := by
  unfold parseFragment
  rw [fragmentParams_pages body hamp]
  have hpages : dictGet (str "pages") [(str "pages", body)] = some body := rfl
  have hlines : dictGet (str "lines") [(str "pages", body)] = none := rfl
  have ht : dictGet (str "t") [(str "pages", body)] = none := rfl
  have hbbox : dictGet (str "bbox") [(str "pages", body)] = none := rfl
  simp only [hpages, hlines, ht, hbbox, hparse]

/-- `parse_address` on a well-shaped `doc://rid#frag` address reduces to
fragment processing. -/
theorem parse_address_doc (rid frag : Str) (hrid : rid ≠ []) (hhash : '#' ∉ rid)
    (hfrag : frag ≠ []) :
    parse_address (str "doc://" ++ (rid ++ '#' :: frag)) =
      match parseFragment .document frag with
      | .ok loc => .ok (rid, loc)
      | .error e => .error e := by
  unfold parse_address
  have hshape : str "doc://" ++ (rid ++ '#' :: frag) =
      (['d', 'o', 'c'] ++ ':' :: ('/' :: '/' :: (rid ++ '#' :: frag))) := rfl
  rw [hshape]
  have htake : (['d', 'o', 'c'] ++ ':' :: ('/' :: '/' :: (rid ++ '#' :: frag))).takeWhile
      isWordChar = ['d', 'o', 'c'] :=
    takeWhile_append_stop (by decide) (by decide) _
  have hdrop : (['d', 'o', 'c'] ++ ':' :: ('/' :: '/' :: (rid ++ '#' :: frag))).dropWhile
      isWordChar = ':' :: ('/' :: '/' :: (rid ++ '#' :: frag)) :=
    dropWhile_append_stop (by decide) (by decide) _
  rw [htake, hdrop]
  have hridchars : ∀ c ∈ rid, (fun c => decide (c ≠ '#')) c = true := by
    intro c hc
    simp only [ne_eq, decide_eq_true_eq]
    intro hcs
    exact hhash (hcs ▸ hc)
  have hridtake : (rid ++ '#' :: frag).takeWhile (fun c => decide (c ≠ '#')) = rid :=
    takeWhile_append_stop hridchars (by simp) frag
  have hriddrop : (rid ++ '#' :: frag).dropWhile (fun c => decide (c ≠ '#')) = '#' :: frag :=
    dropWhile_append_stop hridchars (by simp) frag
  simp only [hridtake, hriddrop]
  rw [if_neg (by decide : ¬ (['d', 'o', 'c'] : Str) = []), if_neg hrid, if_neg hfrag]
  rfl

theorem buildLinesPart_none : buildLinesPart none = [] := rfl

theorem buildTimePart_none_left (e : Option ℚ) : buildTimePart none e = [] := by
  cases e <;> rfl

theorem buildBboxPart_none : buildBboxPart none = [] := rfl

/-- `parsePagesParam` on a rendered `a-b` range. -/
theorem parsePagesParam_range (a b : Int) (ha : 0 ≤ a) :
    parsePagesParam (renderInt a ++ '-' :: renderInt b) = .ok (intRange a (b + 1)) := by
  unfold parsePagesParam
  have hmem : '-' ∈ renderInt a ++ '-' :: renderInt b :=
    List.mem_append.mpr (Or.inr (List.mem_cons_self _ _))
  rw [if_pos hmem]
  have hnodash : ∀ c ∈ renderInt a, c ≠ '-' := by
    intro c hc hcs
    exact renderInt_not_mem_of_nonneg ha (by decide) (hcs ▸ hc)
  simp [splitFirst_append '-' _ _ hnodash, pyParseInt_render]

/-- `parsePagesParam` on a rendered comma list. -/
theorem parsePagesParam_commaList (l : List Int) (hne : l ≠ [])
    (hnn : ∀ p ∈ l, 0 ≤ p) :
    parsePagesParam (pyJoin (str ",") (l.map renderInt)) = .ok l := by
  unfold parsePagesParam
  have hnomem : '-' ∉ pyJoin (str ",") (l.map renderInt) := by
    intro hmem
    rcases mem_pyJoin hmem with hs | ⟨piece, hp, hcp⟩
    · revert hs; decide
    · rcases List.mem_map.mp hp with ⟨p, hpl, rfl⟩
      exact renderInt_not_mem_of_nonneg (hnn p hpl) (by decide) hcp
  rw [if_neg hnomem]
  have hsplit : splitOnChar ',' (pyJoin (str ",") (l.map renderInt)) = l.map renderInt := by
    refine splitOnChar_pyJoin (l.map renderInt) ?_ ?_
    · simpa using hne
    · intro piece hp hcp
      rcases List.mem_map.mp hp with ⟨p, hpl, rfl⟩
      exact renderInt_not_mem_of_nonneg (hnn p hpl) (by decide) hcp
  rw [hsplit, mapM_pyParseInt_render]

/-- `build_address` when only `pages` is populated, given the pages part. -/
theorem build_address_pages_only (rid : Str) (loc : Location) (ps : List Int)
    (hmod : loc.modality = .document) (hpages : loc.pages = some ps)
    (hlines : loc.lines = none) (hstart : loc.start = none)
    (hbbox : loc.bbox = none) (part : Str)
    (hpp : buildPagesPart (some ps) = .ok [part]) (hne : part ≠ []) :
    build_address rid loc = .ok (str "doc" ++ str "://" ++ rid ++ str "#" ++ part) := by
  unfold build_address
  rw [hmod, if_neg (by decide : ¬ Modality.document = Modality.virtual), hpages, hpp,
    hlines, hstart, hbbox]
  simp only [buildLinesPart_none, buildTimePart_none_left, buildBboxPart_none, List.append_nil]
  show (if part = [] then Except.ok (str "doc" ++ str "://" ++ rid)
      else Except.ok (str "doc" ++ str "://" ++ rid ++ str "#" ++ part)) =
    Except.ok (str "doc" ++ str "://" ++ rid ++ str "#" ++ part)
  rw [if_neg hne]
theorem append_ne_nil_left {xs : Str} (h : xs ≠ []) (ys : Str) : xs ++ ys ≠ [] := by
  cases xs with
  | nil => exact absurd rfl h
  | cons a l => simp

/-- Reassociation of the address built by `build_address` into the shape
consumed by `parse_address_doc`. -/
theorem build_addr_shape (rid part : Str) :
    (str "doc" ++ str "://" ++ rid ++ str "#" ++ part : Str) =
      str "doc://" ++ (rid ++ '#' :: part) := by
  simp only [List.append_assoc]
  rfl

/-- `buildPagesPart` on a non-empty sorted list, exposed as an `if`. -/
theorem buildPagesPart_eq (ps : List Int) (a : Int) (rest : List Int)
    (hsort : sortInts ps = a :: rest) :
    buildPagesPart (some ps) =
      if a :: rest = intRange a ((a :: rest).getLastD 0 + 1) then
        .ok [str "pages=" ++ (renderInt a ++ ('-' :: renderInt ((a :: rest).getLastD 0)))]
      else .ok [str "pages=" ++ pyJoin (str ",") ((a :: rest).map renderInt)] := by
  show (match sortInts ps with
      | [] => (Except.error (str "Pages list cannot be empty") : Except Str (List Str))
      | a :: rest =>
        let lastp := (a :: rest).getLastD 0
        if a :: rest = intRange a (lastp + 1) then
          Except.ok [str "pages=" ++ (renderInt a ++ ('-' :: renderInt lastp))]
        else Except.ok [str "pages=" ++ pyJoin (str ",") ((a :: rest).map renderInt)]) = _
  rw [hsort]

/-- **C3 (amended).**  For every Location whose pages field is a populated
list of *non-negative* page numbers (and whose other payload fields are
unset) and every resource id that is non-empty and free of `#`, parsing
the address built from (resource_id, location) succeeds and yields the
same resource_id and a Location whose pages equal the sorted page list of
the original (duplicates, if any, are preserved by the comma rendering,
so "sorted page set" must be read as "sorted page list").  Negative pages
break the round trip — see the counterexample. -/
theorem parse_build_roundtrip_pages (rid : Str) (loc : Location) (ps : List Int)
    (hrid : rid ≠ []) (hhash : '#' ∉ rid)
    (hmod : loc.modality = .document) (hpages : loc.pages = some ps) (hps : ps ≠ [])
    (hnn : ∀ p ∈ ps, 0 ≤ p)
    (hlines : loc.lines = none) (hstart : loc.start = none) (hbbox : loc.bbox = none) :
    ∃ addr loc', build_address rid loc = .ok addr ∧
      parse_address addr = .ok (rid, loc') ∧ loc'.pages = some (sortInts ps) := by
  rcases hsort : sortInts ps with _ | ⟨a, rest⟩
  · exact absurd hsort (sortInts_ne_nil hps)
  have hmemsort : ∀ p ∈ a :: rest, 0 ≤ p := by
    intro p hp
    exact hnn p (mem_of_mem_sortInts (hsort ▸ hp))
  have ha : 0 ≤ a := hmemsort a (List.mem_cons_self a rest)
  have hlast_mem : (a :: rest).getLastD 0 ∈ a :: rest := getLastD_mem_cons rest a 0
  have hlast_nn : 0 ≤ (a :: rest).getLastD 0 := hmemsort _ hlast_mem
  have hppif := buildPagesPart_eq ps a rest hsort
  by_cases hg : a :: rest = intRange a ((a :: rest).getLastD 0 + 1)
  · -- consecutive run: `pages=a-last`
    rw [if_pos hg] at hppif
    have hbody : '&' ∉ renderInt a ++ ('-' :: renderInt ((a :: rest).getLastD 0)) := by
      intro hmem
      rcases List.mem_append.mp hmem with h1 | h2
      · exact renderInt_not_mem_of_nonneg ha (by decide) h1
      · rcases List.mem_cons.mp h2 with h3 | h4
        · exact absurd h3 (by decide)
        · exact renderInt_not_mem_of_nonneg hlast_nn (by decide) h4
    have hparse0 : parsePagesParam (renderInt a ++ ('-' :: renderInt ((a :: rest).getLastD 0))) =
        .ok (a :: rest) := by
      rw [parsePagesParam_range a ((a :: rest).getLastD 0) ha, ← hg]
    have hfragparse := parseFragment_pages_only Modality.document _ hbody hparse0
    have hpartne : str "pages=" ++ (renderInt a ++ ('-' :: renderInt ((a :: rest).getLastD 0))) ≠ [] :=
      append_ne_nil_left (by decide) _
    have hbuild := build_address_pages_only rid loc ps hmod hpages hlines hstart hbbox
      _ hppif hpartne
    refine ⟨_, ⟨Modality.document, some (a :: rest), none, none, none, none, none⟩,
      hbuild, ?_, ?_⟩
    · rw [build_addr_shape, parse_address_doc rid _ hrid hhash hpartne, hfragparse]
    · rfl
  · -- non-consecutive: `pages=p1,p2,...`
    rw [if_neg hg] at hppif
    have hbody : '&' ∉ pyJoin (str ",") ((a :: rest).map renderInt) := by
      intro hmem
      rcases mem_pyJoin hmem with hs | ⟨piece, hp, hcp⟩
      · revert hs; decide
      · rcases List.mem_map.mp hp with ⟨p, hpl, rfl⟩
        exact renderInt_not_mem_of_nonneg (hmemsort p hpl) (by decide) hcp
    have hparse0 := parsePagesParam_commaList (a :: rest) (by simp) hmemsort
    have hfragparse := parseFragment_pages_only Modality.document _ hbody hparse0
    have hpartne : str "pages=" ++ pyJoin (str ",") ((a :: rest).map renderInt) ≠ [] :=
      append_ne_nil_left (by decide) _
    have hbuild := build_address_pages_only rid loc ps hmod hpages hlines hstart hbbox
      _ hppif hpartne
    refine ⟨_, ⟨Modality.document, some (a :: rest), none, none, none, none, none⟩,
      hbuild, ?_, ?_⟩
    · rw [build_addr_shape, parse_address_doc rid _ hrid hhash hpartne, hfragparse]
    · rfl

/-! ## Character-shape lemmas for `format_time` -/

theorem renderInt_chars (i : Int) : ∀ c ∈ renderInt i, c.isDigit = true ∨ c = '-' := by
  unfold renderInt
  split
  · intro c hc
    rcases List.mem_cons.mp hc with h1 | h2
    · exact Or.inr h1
    · exact Or.inl (renderNat_digits _ c h2)
  · intro c hc
    exact Or.inl (renderNat_digits _ c hc)

theorem pad2_chars (i : Int) : ∀ c ∈ pad2 i, c.isDigit = true ∨ c = '-' := by
  show ∀ c ∈ (if 2 ≤ (renderInt i).length then renderInt i else '0' :: renderInt i),
    c.isDigit = true ∨ c = '-'
  split
  · exact renderInt_chars i
  · intro c hc
    rcases List.mem_cons.mp hc with h1 | h2
    · exact Or.inl (by rw [h1]; decide)
    · exact renderInt_chars i c h2

theorem not_mem_pad2 {c : Char} (hc1 : c.isDigit = false) (hc2 : c ≠ '-') (i : Int) :
    c ∉ pad2 i := by
  intro hmem
  rcases pad2_chars i c hmem with h1 | h2
  · rw [hc1] at h1; exact Bool.false_ne_true h1
  · exact hc2 h2

theorem not_mem_renderInt {c : Char} (hc1 : c.isDigit = false) (hc2 : c ≠ '-') (i : Int) :
    c ∉ renderInt i := by
  intro hmem
  rcases renderInt_chars i c hmem with h1 | h2
  · rw [hc1] at h1; exact Bool.false_ne_true h1
  · exact hc2 h2

theorem count_colon_pad2 (i : Int) : List.count ':' (pad2 i) = 0 :=
  List.count_eq_zero.mpr (not_mem_pad2 (by decide) (by decide) i)

theorem pyFloatRepr_chars (q : ℚ) :
    ∀ c ∈ pyFloatRepr q, c.isDigit = true ∨ c = '-' ∨ c = '.' ∨ c = '0' := by
  unfold pyFloatRepr
  intro c hc
  split at hc
  · rcases List.mem_append.mp hc with h1 | h2
    · rcases List.mem_append.mp h1 with h3 | h4
      · rcases List.mem_append.mp h3 with h5 | h6
        · split at h5
          · rcases List.mem_singleton.mp h5 with rfl
            exact Or.inr (Or.inl rfl)
          · exact absurd h5 (List.not_mem_nil c)
        · exact Or.inl (renderNat_digits _ c h6)
      · rcases List.mem_singleton.mp h4 with rfl
        exact Or.inr (Or.inr (Or.inl rfl))
    · unfold leftPadZeros at h2
      rcases List.mem_append.mp h2 with h3 | h4
      · exact Or.inr (Or.inr (Or.inr (List.eq_of_mem_replicate h3)))
      · exact Or.inl (renderNat_digits _ c h4)
  · rcases List.mem_append.mp hc with h1 | h2
    · split at h1
      · rcases List.mem_singleton.mp h1 with rfl
        exact Or.inr (Or.inl rfl)
      · exact absurd h1 (List.not_mem_nil c)
    · exact Or.inl (renderNat_digits _ c h2)

theorem colon_not_mem_pyFloatRepr (q : ℚ) : ':' ∉ pyFloatRepr q := by
  intro hmem
  rcases pyFloatRepr_chars q ':' hmem with h | h | h | h
  · exact Bool.false_ne_true (by revert h; decide)
  all_goals exact absurd h (by decide)

/-! ## Path helpers (`pathlib.Path.stem/.suffix`, `os.path` equivalents) -/

/-- The final path component (`Path(p).name` / `os.path.basename`). -/
def basename (p : Str) : Str := (p.reverse.takeWhile (· ≠ '/')).reverse

/-- `Path(p).suffix`: from the last dot of the basename, empty when there is
no dot or the only dot leads the name. -/
def pathSuffix (p : Str) : Str :=
  let b := basename p
  let afterDot := b.reverse.takeWhile (· ≠ '.')
  if afterDot.length = b.length then []
  else if afterDot.length + 1 = b.length then []
  else '.' :: afterDot.reverse

/-- `Path(p).stem`: the basename with `pathSuffix` removed. -/
def pathStem (p : Str) : Str :=
  let b := basename p
  b.take (b.length - (pathSuffix p).length)

/-! ## Resolver strategies (`citekit/resolvers/`)

Each resolver is modelled as a pure step on the output directory's set of
file names: it returns the output path, the directory contents after the
call, and whether it performed an extraction/write.  The actual media
codecs (ffmpeg, PyMuPDF, Pillow, file I/O) are abstracted to that write;
source-file existence and content are explicit parameters. -/

/-- Writing a file: presence-set insertion (an overwrite leaves it). -/
def insertFile (name : Str) (files : List Str) : List Str :=
  if name ∈ files then files else name :: files

/-- Python `f"{v:.1f}"`: round to one decimal, ties to even.  (Python rounds
the underlying binary double; for the one-or-two-decimal bbox values used in
this codebase the two agree.) -/
def roundHalfEven (q : ℚ) : Int :=
  if q - (Rat.floor q : ℚ) < 1 / 2 then Rat.floor q
  else if (1 : ℚ) / 2 < q - (Rat.floor q : ℚ) then Rat.floor q + 1
  else if Rat.floor q % 2 = 0 then Rat.floor q else Rat.floor q + 1

/-- `%.1f` formatting. -/
def fmt1f (q : ℚ) : Str :=
  (if roundHalfEven (q * 10) < 0 then str "-" else []) ++
    renderNat ((roundHalfEven (q * 10)).natAbs / 10) ++ str "." ++
    renderNat ((roundHalfEven (q * 10)).natAbs % 10)

/-- `f"{source.stem}_clip_{int(start)}s-{int(end)}s{source.suffix}"`. -/
def videoClipName (source_path : Str) (start end_ : ℚ) : Str :=
  pathStem source_path ++ str "_clip_" ++ renderInt (pyTrunc start) ++ str "s-" ++
    renderInt (pyTrunc end_) ++ str "s" ++ pathSuffix source_path

/-- `f"{source.stem}_segment_{int(start)}s-{int(end)}s{source.suffix}"`. -/
def audioSegmentName (source_path : Str) (start end_ : ℚ) : Str :=
  pathStem source_path ++ str "_segment_" ++ renderInt (pyTrunc start) ++ str "s-" ++
    renderInt (pyTrunc end_) ++ str "s" ++ pathSuffix source_path

/-- `f"{source.stem}_pages_{'-'.join(pages)}.pdf"` (pages in given order). -/
def docPagesName (source_path : Str) (pages : List Int) : Str :=
  pathStem source_path ++ str "_pages_" ++ pyJoin (str "-") (pages.map renderInt) ++
    str ".pdf"

/-- `f"{source.stem}_crop_{x1:.1f}_{y1:.1f}_{x2:.1f}_{y2:.1f}{source.suffix}"`. -/
def imageCropName (source_path : Str) (x1 y1 x2 y2 : ℚ) : Str :=
  pathStem source_path ++ str "_crop_" ++ fmt1f x1 ++ '_' :: fmt1f y1 ++ '_' ::
    fmt1f x2 ++ '_' :: fmt1f y2 ++ pathSuffix source_path

/-- `f"{name}_{safe_id}_lines_{start}-{end}{ext}"` with dots of the node id
replaced by underscores. -/
def textLinesName (source_path : Str) (node_id : Str) (start_line end_line : Int) : Str :=
  pathStem (basename source_path) ++ '_' ::
    (node_id.map (fun c => if c = '.' then '_' else c)) ++ str "_lines_" ++
    renderInt start_line ++ str "-" ++ renderInt end_line ++
    pathSuffix (basename source_path)

/-- `VideoResolver.resolve` (`resolvers/video.py`): validates, derives the
deterministic clip name, then extracts **unconditionally** — the source has
no `output_path.exists()` short-circuit, and `ffmpeg -y` overwrites. -/
def videoResolve (output_dir : Str) (node : NodeM) (source_path : Str)
    (sourceExists : Bool) (files : List Str) : Except Str (Str × List Str × Bool) :=
  match node.location.start, node.location.end_ with
  | some start, some end_ =>
    if sourceExists = false then .error (str "Source video not found: " ++ source_path)
    else if end_ - start ≤ 0 then .error (str "Invalid time range")
    else
      .ok (output_dir ++ '/' :: videoClipName source_path start end_,
        insertFile (videoClipName source_path start end_) files, true)
  | _, _ => .error (str "is missing start/end timestamps")

/-- `AudioResolver.resolve` (`resolvers/audio.py`): same shape as video but
returns the cached segment when the output file already exists. -/
def audioResolve (output_dir : Str) (node : NodeM) (source_path : Str)
    (sourceExists : Bool) (files : List Str) : Except Str (Str × List Str × Bool) :=
  match node.location.start, node.location.end_ with
  | some start, some end_ =>
    if sourceExists = false then .error (str "Source audio not found: " ++ source_path)
    else if end_ - start ≤ 0 then .error (str "Invalid time range")
    else if audioSegmentName source_path start end_ ∈ files then
      .ok (output_dir ++ '/' :: audioSegmentName source_path start end_, files, false)
    else
      .ok (output_dir ++ '/' :: audioSegmentName source_path start end_,
        insertFile (audioSegmentName source_path start end_) files, true)
  | _, _ => .error (str "is missing start/end timestamps")

/-- `DocumentResolver.resolve` (`resolvers/document.py`): the cache check
precedes page validation; `numPages` is the source document's page count. -/
def documentResolve (output_dir : Str) (node : NodeM) (source_path : Str)
    (sourceExists : Bool) (numPages : Nat) (files : List Str) :
    Except Str (Str × List Str × Bool) :=
  match node.location.pages with
  | none => .error (str "has no page numbers in its location")
  | some pages =>
    if sourceExists = false then .error (str "Source document not found: " ++ source_path)
    else if docPagesName source_path pages ∈ files then
      .ok (output_dir ++ '/' :: docPagesName source_path pages, files, false)
    else if (pages.filter (fun p => 0 ≤ p - 1 ∧ p - 1 < (numPages : Int))).length = 0 then
      .error (str "No valid pages found")
    else
      .ok (output_dir ++ '/' :: docPagesName source_path pages,
        insertFile (docPagesName source_path pages) files, true)

/-- `ImageResolver.resolve` (`resolvers/image.py`): bbox range and ordering
validation precede the cache check; pixel cropping is abstracted. -/
def imageResolve (output_dir : Str) (node : NodeM) (source_path : Str)
    (sourceExists : Bool) (files : List Str) : Except Str (Str × List Str × Bool) :=
  match node.location.bbox with
  | none => .error (str "has no bounding box in its location")
  | some (x1, y1, x2, y2) =>
    if sourceExists = false then .error (str "Source image not found: " ++ source_path)
    else if ¬ (0 ≤ x1 ∧ x1 ≤ 1 ∧ 0 ≤ y1 ∧ y1 ≤ 1 ∧ 0 ≤ x2 ∧ x2 ≤ 1 ∧ 0 ≤ y2 ∧ y2 ≤ 1) then
      .error (str "Bounding box values must be 0.0-1.0")
    else if x2 ≤ x1 ∨ y2 ≤ y1 then
      .error (str "Invalid bounding box: x1 must be < x2, y1 must be < y2.")
    else if imageCropName source_path x1 y1 x2 y2 ∈ files then
      .ok (output_dir ++ '/' :: imageCropName source_path x1 y1 x2 y2, files, false)
    else
      .ok (output_dir ++ '/' :: imageCropName source_path x1 y1 x2 y2,
        insertFile (imageCropName source_path x1 y1 x2 y2) files, true)

/-- Python list slicing `l[a:b]` for `0 ≤ a` (a negative `b` counts from the
end). -/
def pySlice (l : List Str) (a b : Int) : List Str :=
  let stop : Nat := if b < 0 then ((l.length : Int) + b).toNat else b.toNat
  (l.take stop).drop a.toNat

/-- `TextResolver.resolve` (`resolvers/text.py`): reads and slices the
source *before* the cache check (the slice content itself does not affect
the returned path and is dropped by the model); only the write is skipped
on a cache hit. -/
def textResolve (output_dir : Str) (node : NodeM) (source_path : Str)
    (srcLines : Option (List Str)) (files : List Str) :
    Except Str (Str × List Str × Bool) :=
  match srcLines with
  | none => .error (str "Source file not found: " ++ source_path)
  | some all_lines =>
    match node.location.lines with
    | none => .error (str "has no line range defined.")
    | some (start_line, end_line) =>
      if (all_lines.length : Int) ≤ max 0 (start_line - 1) then
        .error (str "Start line is beyond file length")
      else if textLinesName source_path node.id start_line end_line ∈ files then
        .ok (output_dir ++ '/' :: textLinesName source_path node.id start_line end_line,
          files, false)
      else
        .ok (output_dir ++ '/' :: textLinesName source_path node.id start_line end_line,
          insertFile (textLinesName source_path node.id start_line end_line) files, true)

/-! ## Resource maps and the resolution engine (`models.py`, `client.py`) -/

/-- A JSON metadata value (`dict[str, str | int | float | None]`). -/
inductive MetaVal where
  | s (v : Str)
  | i (v : Int)
  | f (v : ℚ)
  | nullv
deriving DecidableEq

/-- Python-`dict` lookup over an association list with unique keys. -/
def dictGetM (k : Str) : List (Str × MetaVal) → Option MetaVal
  | [] => none
  | (k', v) :: rest => if k' = k then some v else dictGetM k rest

/-- Python-`dict` key assignment: replace in place, else append. -/
def dictSetM (k : Str) (v : MetaVal) : List (Str × MetaVal) → List (Str × MetaVal)
  | [] => [(k, v)]
  | (k', v') :: rest => if k' = k then (k, v) :: rest else (k', v') :: dictSetM k v rest

/-- `ResourceMap` (`models.py`; `created_at`, a wall-clock timestamp, is not
modelled — nothing reads it). -/
structure RMapM where
  resource_id : Str
  type_ : Modality
  title : Str
  source_path : Str
  metadata : Option (List (Str × MetaVal)) := none
  nodes : List NodeM := []

/-- `ResourceMap.get_node`'s inner `find`: first id match in pre-order,
descending into children before continuing with siblings. -/
def findNode (nid : Str) : List NodeM → Option NodeM
  | [] => none
  | n :: rest =>
    if n.id = nid then some n
    else
      match findNode nid n.children with
      | some found => some found
      | none => findNode nid rest
termination_by l => sizeOf l
decreasing_by
  all_goals simp_wf
  all_goals (first | (cases n; simp; omega) | omega)

/-- `ResourceMap.get_node`. -/
def get_node (m : RMapM) (nid : Str) : Option NodeM := findNode nid m.nodes

/-- `ResourceMap.list_node_ids`'s inner `collect`, in its append order. -/
def collectIds : List NodeM → List Str
  | [] => []
  | n :: rest => n.id :: (collectIds n.children ++ collectIds rest)
termination_by l => sizeOf l
decreasing_by
  all_goals simp_wf
  all_goals (first | (cases n; simp; omega) | omega)

/-- `ResourceMap.list_node_ids`. -/
def list_node_ids (m : RMapM) : List Str := collectIds m.nodes

/-- Engine state: the map store (one entry per `{resource_id}.json` file)
and the number of Map Provider invocations so far. -/
structure EngineState where
  store : List (Str × RMapM)
  mapperCalls : Nat

/-- Load `{rid}.json` from the store (`get_map`'s lookup; JSON
de/serialisation is modelled as the identity). -/
def storeGet (k : Str) : List (Str × RMapM) → Option RMapM
  | [] => none
  | (k', m) :: rest => if k' = k then some m else storeGet k rest

/-- `_save_map`: overwrite `{rid}.json` or create it. -/
def storeSet (k : Str) (m : RMapM) : List (Str × RMapM) → List (Str × RMapM)
  | [] => [(k, m)]
  | (k', m') :: rest => if k' = k then (k, m) :: rest else (k', m') :: storeSet k m rest

/-- `_find_map_by_hash`: linear scan of the stored maps for a metadata
`source_hash` equal (as a JSON string) to the digest.  A stored map whose
`metadata` is `null` raises inside the `try` and is skipped. -/
def findMapByHash (h : Str) : List (Str × RMapM) → Option RMapM
  | [] => none
  | (_, m) :: rest =>
    match m.metadata with
    | none => findMapByHash h rest
    | some meta =>
      if dictGetM (str "source_hash") meta = some (.s h) then some m
      else findMapByHash h rest

/-- `CiteKitClient.ingest`.  `hash` abstracts the streaming SHA-256 digest
(byte-identical content gives identical digests); `mapper` is the
configured Map Provider as a pure function of (path, type, id) — the
`await`/semaphore admission around the single call does not affect the
returned value; `content` is the source file's bytes, `none` when the file
does not exist. -/
def ingest (hash : Str → Str) (mapper : Option (Str → Modality → Str → RMapM))
    (resource_path : Str) (content : Option Str) (resource_type : Modality)
    (resource_id? : Option Str) (st : EngineState) :
    Except Str (RMapM × EngineState) :=
  match mapper with
  | none => .error (str "No mapper provider configured.")
  | some generate_map =>
    match content with
    | none => .error (str "File not found: " ++ resource_path)
    | some bytes =>
      match findMapByHash (hash bytes) st.store with
      | some cached => .ok (cached, st)
      | none =>
        let rid := resource_id?.getD (pathStem resource_path)
        let m := generate_map resource_path resource_type rid
        let meta2 := dictSetM (str "source_size") (.i bytes.length)
          (dictSetM (str "source_hash") (.s (hash bytes)) (m.metadata.getD []))
        let m' := { m with metadata := some meta2 }
        .ok (m', { store := storeSet m'.resource_id m' st.store,
                   mapperCalls := st.mapperCalls + 1 })

/-- The engine's errors (`client.py` raises `FileNotFoundError` and
`ValueError` with these payloads). -/
inductive CkError where
  | fileNotFound (rid : Str)
  | nodeNotFound (nid : Str) (available : List Str)
  | valueErr (msg : Str)
  | noResolver (modality : Modality)

/-- A resolution outcome: either the virtual early-return or the dispatch
to the modality's resolver strategy (whose filesystem step is modelled
separately by `videoResolve` etc.). -/
inductive Resolution where
  | virtualEv (address : Str) (modality : Modality) (node : NodeM) (resource_id : Str)
  | physical (address : Str) (modality : Modality) (node : NodeM) (resource_id : Str)

/-- `CiteKitClient.resolve` up to resolver dispatch: map lookup, node
lookup (with the complete id listing in the not-found error), address
construction, virtual early-return, resolver-registry lookup. -/
def clientResolve (store : List (Str × RMapM)) (resource_id node_id : Str)
    (virtual : Bool) : Except CkError Resolution :=
  match storeGet resource_id store with
  | none => .error (.fileNotFound resource_id)
  | some resource_map =>
    match get_node resource_map node_id with
    | none => .error (.nodeNotFound node_id (list_node_ids resource_map))
    | some node =>
      match build_address resource_id node.location with
      | .error e => .error (.valueErr e)
      | .ok address =>
        if virtual then .ok (.virtualEv address node.location.modality node resource_id)
        else
          match node.location.modality with
          | .virtual => .error (.noResolver .virtual)
          | m => .ok (.physical address m node resource_id)

/-! ## The spec's Location invariant (not present in `models.py`) -/

/-- How many payload variants of a `Location` are populated, reading
`start`/`end` as the one time-interval variant.  Follows the spec's words
("Exactly one payload variant is populated"); `models.py` declares no
validator of this kind, so this definition exists for comparison with the
code's actual behaviour. -/
def locationPayloadCount (loc : Location) : Nat :=
  (if loc.pages.isSome then 1 else 0) + (if loc.lines.isSome then 1 else 0) +
    (if loc.start.isSome ∨ loc.end_.isSome then 1 else 0) +
    (if loc.bbox.isSome then 1 else 0) +
    (if loc.virtual_address.isSome then 1 else 0)

/-- Whether the populated payload is the one of the declared modality
(spec: "it must match the declared modality tag"). -/
def payloadMatchesModality (loc : Location) : Bool :=
  match loc.modality with
  | .document => loc.pages.isSome
  | .text => loc.lines.isSome
  | .video => loc.start.isSome && loc.end_.isSome
  | .audio => loc.start.isSome && loc.end_.isSome
  | .image => loc.bbox.isSome
  | .virtual => loc.virtual_address.isSome

/-- The spec's claimed `Location` invariant, as a proposition. -/
def locationInvariant (loc : Location) : Prop :=
  locationPayloadCount loc = 1 ∧ payloadMatchesModality loc = true

/-! ## Engine lemmas -/

theorem dictGetM_set_same (k : Str) (v : MetaVal) :
    ∀ ps, dictGetM k (dictSetM k v ps) = some v := by
  intro ps
  induction ps with
  | nil => simp [dictSetM, dictGetM]
  | cons p rest ih =>
    obtain ⟨k', v'⟩ := p
    unfold dictSetM
    split
    · simp [dictGetM]
    · next hne =>
      unfold dictGetM
      rw [if_neg hne]
      exact ih

theorem dictGetM_set_other {k k' : Str} (h : ¬ k' = k) (v : MetaVal) :
    ∀ ps, dictGetM k (dictSetM k' v ps) = dictGetM k ps := by
  intro ps
  induction ps with
  | nil => simp [dictSetM, dictGetM, h]
  | cons p rest ih =>
    obtain ⟨a, b⟩ := p
    unfold dictSetM
    split
    · next ha =>
      subst ha
      unfold dictGetM
      rw [if_neg h, if_neg h]
    · unfold dictGetM
      split
      · rfl
      · exact ih

theorem findMapByHash_storeSet (h k : Str) (m : RMapM)
    (meta : List (Str × MetaVal)) (hmeta : m.metadata = some meta)
    (hhit : dictGetM (str "source_hash") meta = some (.s h)) :
    ∀ l, findMapByHash h l = none →
      findMapByHash h (storeSet k m l) = some m := by
  intro l
  induction l with
  | nil =>
    intro _
    simp [storeSet, findMapByHash, hmeta, hhit]
  | cons p rest ih =>
    obtain ⟨k', m'⟩ := p
    intro hl
    unfold findMapByHash at hl
    unfold storeSet
    split
    · unfold findMapByHash
      rw [hmeta]
      show (if dictGetM (str "source_hash") meta = some (MetaVal.s h) then some m
        else findMapByHash h rest) = some m
      rw [if_pos hhit]
    · unfold findMapByHash
      cases hm' : m'.metadata with
      | none =>
        rw [hm'] at hl
        exact ih hl
      | some meta' =>
        rw [hm'] at hl
        change (if dictGetM (str "source_hash") meta' = some (MetaVal.s h) then some m'
          else findMapByHash h rest) = none at hl
        change (if dictGetM (str "source_hash") meta' = some (MetaVal.s h) then some m'
          else findMapByHash h (storeSet k m rest)) = some m
        by_cases hq : dictGetM (str "source_hash") meta' = some (MetaVal.s h)
        · rw [if_pos hq] at hl
          exact absurd hl (by simp)
        · rw [if_neg hq] at hl ⊢
          exact ih hl

theorem sizeOf_children_lt (n : NodeM) (rest : List NodeM) :
    sizeOf n.children < sizeOf (n :: rest) := by
  cases n
  simp
  omega

theorem sizeOf_rest_lt (n : NodeM) (rest : List NodeM) :
    sizeOf rest < sizeOf (n :: rest) := by
  simp

/-- `get_node`'s recursive search misses exactly when the id is absent from
`list_node_ids`'s recursive collection. -/
theorem findNode_eq_none_iff (nid : Str) :
    ∀ l : List NodeM, (findNode nid l = none ↔ nid ∉ collectIds l) := by
  have key : ∀ k : Nat, ∀ l : List NodeM, sizeOf l ≤ k →
      (findNode nid l = none ↔ nid ∉ collectIds l) := by
    intro k
    induction k using Nat.strong_induction_on with
    | _ k ih =>
      intro l hl
      match l with
      | [] => simp [findNode, collectIds]
      | n :: rest =>
        have hszc : sizeOf n.children < sizeOf (n :: rest) := sizeOf_children_lt n rest
        have hszr : sizeOf rest < sizeOf (n :: rest) := sizeOf_rest_lt n rest
        have ihc := ih (sizeOf n.children) (by omega) n.children (by omega)
        have ihr := ih (sizeOf rest) (by omega) rest (by omega)
        rw [findNode, collectIds]
        by_cases hid : n.id = nid
        · rw [if_pos hid]
          simp [hid]
        · rw [if_neg hid]
          cases hc : findNode nid n.children with
          | some f =>
            have hmem : nid ∈ collectIds n.children := by
              by_contra hnot
              rw [← ihc] at hnot
              rw [hc] at hnot
              exact absurd hnot (by simp)
            simp only [List.mem_cons, List.mem_append]
            constructor
            · intro hcontra
              exact absurd hcontra (by simp)
            · intro hcontra
              exact absurd (Or.inr (Or.inl hmem)) hcontra
          | none =>
            have hnotc : nid ∉ collectIds n.children := (ihc.mp hc)
            rw [ihr]
            simp only [List.mem_cons, List.mem_append]
            constructor
            · intro hnr hcontra
              rcases hcontra with h1 | h2 | h3
              · exact hid h1.symm
              · exact hnotc h2
              · exact hnr h3
            · intro hall hr
              exact hall (Or.inr (Or.inr hr))
  intro l
  exact key (sizeOf l) l le_rfl

/-! ## The claims -/

/-- **C1.**  For every pair of source files with byte-identical content,
ingesting the second — under any requested resource id and resource type —
returns the ResourceMap already cached for the first content digest
unchanged, does not invoke the Map Provider (`mapperCalls` is unchanged,
being part of the returned state), and creates no second store entry (the
whole engine state is returned unchanged). -/
theorem C1_ingest_content_hash_cache (hash : Str → Str)
    (gen : Str → Modality → Str → RMapM) (p1 p2 c : Str) (ty1 ty2 : Modality)
    (id1 id2 : Option Str) (st : EngineState) (m1 : RMapM) (st1 : EngineState)
    (hmiss : findMapByHash (hash c) st.store = none)
    (h1 : ingest hash (some gen) p1 (some c) ty1 id1 st = .ok (m1, st1)) :
    ingest hash (some gen) p2 (some c) ty2 id2 st1 = .ok (m1, st1) := by
  simp only [ingest, hmiss] at h1
  rw [Except.ok.injEq, Prod.mk.injEq] at h1
  obtain ⟨hm1, hst1⟩ := h1
  subst hm1
  subst hst1
  simp only [ingest]
  rw [findMapByHash_storeSet (hash c) _ _ _ rfl
    (by rw [dictGetM_set_other (by decide), dictGetM_set_same])]
  exact hmiss

/-- The sample Map Provider output used by `C1_witness`. -/
def c1gen : Str → Modality → Str → RMapM :=
  fun _ _ rid => RMapM.mk rid Modality.document (str "T") (str "f1.pdf") none []

/-- The map `C1_witness`'s first ingest persists (hash = identity on the
3-byte content `"abc"`). -/
def c1map : RMapM :=
  RMapM.mk (str "f1") Modality.document (str "T") (str "f1.pdf")
    (some [(str "source_hash", MetaVal.s (str "abc")), (str "source_size", MetaVal.i 3)]) []

/-- The engine state after `C1_witness`'s first ingest. -/
def c1st1 : EngineState := EngineState.mk [(str "f1", c1map)] 1

/-- Closed witness for `C1_ingest_content_hash_cache`: a two-ingest run on
an initially empty store, the second under a different path, type and
requested id. -/
theorem C1_witness :
    findMapByHash ((fun c => c) (str "abc")) (EngineState.mk [] 0).store = none ∧
    ingest (fun c => c) (some c1gen) (str "f1.pdf") (some (str "abc")) .document none
      (EngineState.mk [] 0) = .ok (c1map, c1st1) ∧
    ingest (fun c => c) (some c1gen) (str "f2.pdf") (some (str "abc")) .video
      (some (str "other")) c1st1 = .ok (c1map, c1st1) := by
  refine ⟨rfl, rfl, ?_⟩
  exact C1_ingest_content_hash_cache (fun c => c) c1gen (str "f1.pdf") (str "f2.pdf")
    (str "abc") .document .video none (some (str "other")) (EngineState.mk [] 0)
    c1map c1st1 rfl rfl

/-- **C2 (counterexample).**  The claim says every modality's resolver
returns an already-existing deterministically-named output immediately,
with no re-extraction.  The video resolver has no such check: with the
output file already present in the directory, `resolve` still extracts
(the returned write flag is `true`; `ffmpeg -y` overwrites). -/
theorem C2_counterexample :
    videoResolve (str "out")
      (NodeM.mk (str "n") none (str "clip")
        (Location.mk .video none none (some 0) (some 1) none none) none [])
      (str "lec.mp4") true [videoClipName (str "lec.mp4") 0 1] =
      .ok (str "out" ++ '/' :: videoClipName (str "lec.mp4") 0 1,
        [videoClipName (str "lec.mp4") 0 1], true) := by
  simp only [videoResolve]
  rw [if_neg (by decide : ¬ (true = false)), if_neg (by norm_num : ¬ ((1 : ℚ) - 0 ≤ 0))]
  rw [show insertFile (videoClipName (str "lec.mp4") 0 1) [videoClipName (str "lec.mp4") 0 1]
      = [videoClipName (str "lec.mp4") 0 1] by
    unfold insertFile
    rw [if_pos (List.mem_singleton_self _)]]

/-- **C2 (amended).**  The audio, document, image and text resolvers
return the cached artifact — same path, directory unchanged, no write —
whenever a file with the computed deterministic name already exists (for
text, the source is still re-read and re-sliced first, and the document
cache hit skips page validation entirely); the video resolver re-invokes
extraction unconditionally, overwriting the artifact. -/
theorem C2_resolver_caching :
    (∀ (out : Str) (node : NodeM) (src : Str) (files : List Str) (st en : ℚ),
      node.location.start = some st → node.location.end_ = some en → 0 < en - st →
      audioSegmentName src st en ∈ files →
      audioResolve out node src true files =
        .ok (out ++ '/' :: audioSegmentName src st en, files, false)) ∧
    (∀ (out : Str) (node : NodeM) (src : Str) (numPages : Nat) (files : List Str)
      (pages : List Int),
      node.location.pages = some pages → docPagesName src pages ∈ files →
      documentResolve out node src true numPages files =
        .ok (out ++ '/' :: docPagesName src pages, files, false)) ∧
    (∀ (out : Str) (node : NodeM) (src : Str) (files : List Str) (x1 y1 x2 y2 : ℚ),
      node.location.bbox = some (x1, y1, x2, y2) →
      0 ≤ x1 → x1 ≤ 1 → 0 ≤ y1 → y1 ≤ 1 → 0 ≤ x2 → x2 ≤ 1 → 0 ≤ y2 → y2 ≤ 1 →
      x1 < x2 → y1 < y2 → imageCropName src x1 y1 x2 y2 ∈ files →
      imageResolve out node src true files =
        .ok (out ++ '/' :: imageCropName src x1 y1 x2 y2, files, false)) ∧
    (∀ (out : Str) (node : NodeM) (src : Str) (all_lines : List Str)
      (files : List Str) (a b : Int),
      node.location.lines = some (a, b) →
      max 0 (a - 1) < (all_lines.length : Int) →
      textLinesName src node.id a b ∈ files →
      textResolve out node src (some all_lines) files =
        .ok (out ++ '/' :: textLinesName src node.id a b, files, false)) ∧
    (∀ (out : Str) (node : NodeM) (src : Str) (files : List Str) (st en : ℚ),
      node.location.start = some st → node.location.end_ = some en → 0 < en - st →
      videoResolve out node src true files =
        .ok (out ++ '/' :: videoClipName src st en,
          insertFile (videoClipName src st en) files, true)) := by
  refine ⟨?_, ?_, ?_, ?_, ?_⟩
  · intro out node src files st en hstart hend hdur hmem
    simp only [audioResolve, hstart, hend]
    rw [if_neg (by decide : ¬ (true = false)), if_neg (not_le.mpr hdur), if_pos hmem]
  · intro out node src numPages files pages hpages hmem
    simp only [documentResolve, hpages]
    rw [if_neg (by decide : ¬ (true = false)), if_pos hmem]
  · intro out node src files x1 y1 x2 y2 hbbox h1 h2 h3 h4 h5 h6 h7 h8 hx hy hmem
    simp only [imageResolve, hbbox]
    rw [if_neg (by decide : ¬ (true = false)),
      if_neg (not_not_intro ⟨h1, h2, h3, h4, h5, h6, h7, h8⟩),
      if_neg (not_or.mpr ⟨not_le.mpr hx, not_le.mpr hy⟩), if_pos hmem]
  · intro out node src all_lines files a b hlines hlt hmem
    simp only [textResolve, hlines]
    rw [if_neg (not_le.mpr hlt), if_pos hmem]
  · intro out node src files st en hstart hend hdur
    simp only [videoResolve, hstart, hend]
    rw [if_neg (by decide : ¬ (true = false)), if_neg (not_le.mpr hdur)]

/-- Closed witness for `C2_resolver_caching`, instantiating each conjunct
at a concrete node with the output file already in the directory. -/
theorem C2_witness :
    audioResolve (str "o")
      (NodeM.mk (str "n") none (str "t")
        (Location.mk .audio none none (some 0) (some 1) none none) none [])
      (str "a.mp3") true [audioSegmentName (str "a.mp3") 0 1] =
      .ok (str "o" ++ '/' :: audioSegmentName (str "a.mp3") 0 1,
        [audioSegmentName (str "a.mp3") 0 1], false) ∧
    documentResolve (str "o")
      (NodeM.mk (str "n") none (str "t")
        (Location.mk .document (some [2]) none none none none none) none [])
      (str "b.pdf") true 3 [docPagesName (str "b.pdf") [2]] =
      .ok (str "o" ++ '/' :: docPagesName (str "b.pdf") [2],
        [docPagesName (str "b.pdf") [2]], false) ∧
    imageResolve (str "o")
      (NodeM.mk (str "n") none (str "t")
        (Location.mk .image none none none none (some (0, 0, 1, 1)) none) none [])
      (str "i.png") true [imageCropName (str "i.png") 0 0 1 1] =
      .ok (str "o" ++ '/' :: imageCropName (str "i.png") 0 0 1 1,
        [imageCropName (str "i.png") 0 0 1 1], false) ∧
    textResolve (str "o")
      (NodeM.mk (str "n") none (str "t")
        (Location.mk .text none (some (1, 2)) none none none none) none [])
      (str "c.txt") (some [str "line1"]) [textLinesName (str "c.txt") (str "n") 1 2] =
      .ok (str "o" ++ '/' :: textLinesName (str "c.txt") (str "n") 1 2,
        [textLinesName (str "c.txt") (str "n") 1 2], false) ∧
    videoResolve (str "o")
      (NodeM.mk (str "n") none (str "t")
        (Location.mk .video none none (some 0) (some 1) none none) none [])
      (str "v.mp4") true [] =
      .ok (str "o" ++ '/' :: videoClipName (str "v.mp4") 0 1,
        insertFile (videoClipName (str "v.mp4") 0 1) [], true) := by
  refine ⟨?_, ?_, ?_, ?_, ?_⟩
  · exact C2_resolver_caching.1 (str "o") _ (str "a.mp3") _ 0 1 rfl rfl (by norm_num)
      (List.mem_singleton_self _)
  · exact C2_resolver_caching.2.1 (str "o") _ (str "b.pdf") 3 _ [2] rfl
      (List.mem_singleton_self _)
  · exact C2_resolver_caching.2.2.1 (str "o") _ (str "i.png") _ 0 0 1 1 rfl
      (by norm_num) (by norm_num) (by norm_num) (by norm_num) (by norm_num)
      (by norm_num) (by norm_num) (by norm_num) (by norm_num) (by norm_num)
      (List.mem_singleton_self _)
  · exact C2_resolver_caching.2.2.2.1 (str "o") _ (str "c.txt") [str "line1"] _ 1 2 rfl
      (by norm_num) (List.mem_singleton_self _)
  · exact C2_resolver_caching.2.2.2.2 (str "o") _ (str "v.mp4") [] 0 1 rfl rfl
      (by norm_num)

/-- **C3 (counterexample).**  The claim quantifies over every populated
page list, but a negative page breaks the round trip: `[-1]` builds the
address `doc://book#pages=-1--1`, whose fragment re-parse splits at the
first `-` and calls `int("")`, a `ValueError`. -/
theorem C3_counterexample :
    build_address (str "book")
      (Location.mk .document (some [-1]) none none none none none) =
      .ok (str "doc://book#pages=-1--1") ∧
    parse_address (str "doc://book#pages=-1--1") =
      .error (str "invalid literal for int() with base 10") := ⟨rfl, rfl⟩

/-- Closed witness for `parse_build_roundtrip_pages` at the spec's own
example list `[1, 3, 7]`. -/
theorem C3_witness :
    ∃ addr loc', build_address (str "book")
        (Location.mk .document (some [1, 3, 7]) none none none none none) = .ok addr ∧
      parse_address addr = .ok (str "book", loc') ∧
      loc'.pages = some (sortInts [1, 3, 7]) :=
  parse_build_roundtrip_pages (str "book") _ [1, 3, 7] (by decide) (by decide)
    rfl rfl (by decide) (by decide) rfl rfl rfl

/-- **C4.**  `build_address` canonicalizes page lists: the consecutive run
`[3,4,5]` renders as the range `pages=3-5`, the non-consecutive `[1,3,7]`
as the comma list `pages=1,3,7`, and `[3,4,6]` — whose endpoints alone
look like the consecutive run 3..6 — as `pages=3,4,6`, showing the guard
compares the whole sorted list against `range(first, last+1)`. -/
theorem C4_build_canonicalizes_pages :
    build_address (str "book")
      (Location.mk .document (some [3, 4, 5]) none none none none none) =
      .ok (str "doc://book#pages=3-5") ∧
    build_address (str "book")
      (Location.mk .document (some [1, 3, 7]) none none none none none) =
      .ok (str "doc://book#pages=1,3,7") ∧
    build_address (str "book")
      (Location.mk .document (some [3, 4, 6]) none none none none none) =
      .ok (str "doc://book#pages=3,4,6") := ⟨rfl, rfl, rfl⟩

/-- The non-integral time value 3600.5 (= 7201/2) used against C5. -/
def q3600p5 : ℚ := ⟨7201, 2, by norm_num, by norm_num⟩

/-- **C5 (counterexample).**  The claim says every time value ≥ 3600
seconds renders as `HH:MM:SS`; but `_format_time` applies the clock
formats only after `seconds == int(seconds)`, so the non-integral 3600.5
renders as the bare decimal `"3600.5"` with no colon at all. -/
theorem C5_counterexample :
    (3600 : ℚ) ≤ q3600p5 ∧ format_time q3600p5 = str "3600.5" ∧
      ':' ∉ format_time q3600p5 := ⟨by decide, rfl, by decide⟩

/-- **C5 (amended).**  *Integral* values ≥ 3600 s render in `HH:MM:SS`
form (exactly two colons, no decimal point); *integral* values in
[60, 3600) render in `MM:SS` form (one colon, no decimal point);
*integral* values < 60 render as bare seconds (no colon, no decimal
point) — so a mathematically-integral value never renders a decimal
point; non-integral values never render in a clock form (no colon),
falling back to Python `str()` of the float. -/
theorem C5_time_rendering (q : ℚ) :
    (q.den = 1 → (3600 : ℚ) ≤ q →
      List.count ':' (format_time q) = 2 ∧ '.' ∉ format_time q) ∧
    (q.den = 1 → (60 : ℚ) ≤ q → q < 3600 →
      List.count ':' (format_time q) = 1 ∧ '.' ∉ format_time q) ∧
    (q.den = 1 → q < 60 → ':' ∉ format_time q ∧ '.' ∉ format_time q) ∧
    (q.den ≠ 1 → ':' ∉ format_time q) := by
  refine ⟨?_, ?_, ?_, ?_⟩
  · intro hden h36
    have hq : (q.num : ℚ) = q := (Rat.den_eq_one_iff q).mp hden
    have h36' : (3600 : Int) ≤ q.num := by
      rw [← hq] at h36
      exact_mod_cast h36
    unfold format_time
    rw [if_pos hden, if_pos h36']
    constructor
    · simp only [List.count_append, count_colon_pad2]
      decide
    · intro hmem
      simp only [List.append_assoc, List.mem_append] at hmem
      rcases hmem with h | h | h | h | h
      · exact not_mem_pad2 (by decide) (by decide) _ h
      · exact absurd h (by decide)
      · exact not_mem_pad2 (by decide) (by decide) _ h
      · exact absurd h (by decide)
      · exact not_mem_pad2 (by decide) (by decide) _ h
  · intro hden h60 h3600
    have hq : (q.num : ℚ) = q := (Rat.den_eq_one_iff q).mp hden
    have h60' : (60 : Int) ≤ q.num := by
      rw [← hq] at h60
      exact_mod_cast h60
    have h3600' : q.num < 3600 := by
      rw [← hq] at h3600
      exact_mod_cast h3600
    unfold format_time
    rw [if_pos hden, if_neg (by omega : ¬ (3600 : Int) ≤ q.num), if_pos h60']
    constructor
    · simp only [List.count_append, count_colon_pad2]
      decide
    · intro hmem
      simp only [List.append_assoc, List.mem_append] at hmem
      rcases hmem with h | h | h
      · exact not_mem_pad2 (by decide) (by decide) _ h
      · exact absurd h (by decide)
      · exact not_mem_pad2 (by decide) (by decide) _ h
  · intro hden h60
    have hq : (q.num : ℚ) = q := (Rat.den_eq_one_iff q).mp hden
    have h60' : q.num < 60 := by
      rw [← hq] at h60
      exact_mod_cast h60
    unfold format_time
    rw [if_pos hden, if_neg (by omega : ¬ (3600 : Int) ≤ q.num),
      if_neg (by omega : ¬ (60 : Int) ≤ q.num)]
    exact ⟨not_mem_renderInt (by decide) (by decide) _,
      not_mem_renderInt (by decide) (by decide) _⟩
  · intro hden
    unfold format_time
    rw [if_neg hden]
    exact colon_not_mem_pyFloatRepr q

/-- Closed witness for `C5_time_rendering`, one instance per branch:
3700 s, 100 s, 59 s, and the non-integral 3600.5 s. -/
theorem C5_witness :
    (List.count ':' (format_time 3700) = 2 ∧ '.' ∉ format_time 3700) ∧
    (List.count ':' (format_time 100) = 1 ∧ '.' ∉ format_time 100) ∧
    (':' ∉ format_time 59 ∧ '.' ∉ format_time 59) ∧
    ':' ∉ format_time q3600p5 :=
  ⟨(C5_time_rendering 3700).1 (by decide) (by decide),
   (C5_time_rendering 100).2.1 (by decide) (by decide) (by decide),
   (C5_time_rendering 59).2.2.1 (by decide) (by decide),
   (C5_time_rendering q3600p5).2.2.2 (by decide)⟩

/-- **C6 (counterexample).**  The claim says `build` checks each bbox
component for membership in [0,1] and fails when one lies outside; in the
code `build_address` renders the bbox with no range check at all: a bbox
with first component 2 builds successfully. -/
theorem C6_counterexample :
    build_address (str "img")
      (Location.mk .image none none none none (some (2, 0, 0, 1)) none) =
      .ok (str "image://img#bbox=2,0,0,1") := rfl

/-- **C6 (amended).**  `build_address` renders a populated bbox without
range validation (it always succeeds when no other part raises); the
[0,1] membership check lives in `ImageResolver.resolve`, which fails with
the bounding-box validation error when any component lies outside
[0,1]. -/
theorem C6_bbox_checked_at_resolve :
    (∀ (rid : Str) (loc : Location) (bb : ℚ × ℚ × ℚ × ℚ),
      loc.modality = .image → loc.pages = none → loc.bbox = some bb →
      ∃ addr, build_address rid loc = .ok addr) ∧
    (∀ (out : Str) (node : NodeM) (src : Str) (files : List Str) (x1 y1 x2 y2 : ℚ),
      node.location.bbox = some (x1, y1, x2, y2) →
      ¬ (0 ≤ x1 ∧ x1 ≤ 1 ∧ 0 ≤ y1 ∧ y1 ≤ 1 ∧ 0 ≤ x2 ∧ x2 ≤ 1 ∧ 0 ≤ y2 ∧ y2 ≤ 1) →
      imageResolve out node src true files =
        .error (str "Bounding box values must be 0.0-1.0")) := by
  constructor
  · intro rid loc bb hmod hpages hbbox
    have hred : build_address rid loc =
        (if pyJoin (str "&") ([] ++ buildLinesPart loc.lines ++
            buildTimePart loc.start loc.end_ ++ buildBboxPart loc.bbox) = []
         then Except.ok (str "image://" ++ rid)
         else Except.ok (str "image://" ++ rid ++ str "#" ++
           pyJoin (str "&") ([] ++ buildLinesPart loc.lines ++
             buildTimePart loc.start loc.end_ ++ buildBboxPart loc.bbox))) := by
      unfold build_address
      rw [hmod, if_neg (by decide : ¬ Modality.image = Modality.virtual), hpages]
      rfl
    by_cases hfrag : pyJoin (str "&") ([] ++ buildLinesPart loc.lines ++
        buildTimePart loc.start loc.end_ ++ buildBboxPart loc.bbox) = []
    · exact ⟨_, by rw [hred, if_pos hfrag]⟩
    · exact ⟨_, by rw [hred, if_neg hfrag]⟩
  · intro out node src files x1 y1 x2 y2 hbbox hbad
    simp only [imageResolve, hbbox]
    rw [if_neg (by decide : ¬ (true = false)), if_pos hbad]

/-- Closed witness for `C6_bbox_checked_at_resolve`: the out-of-range bbox
(2, 0, 0, 1) builds successfully but is rejected by the image resolver. -/
theorem C6_witness :
    (∃ addr, build_address (str "img")
      (Location.mk .image none none none none (some (2, 0, 0, 1)) none) = .ok addr) ∧
    imageResolve (str "o")
      (NodeM.mk (str "n") none (str "t")
        (Location.mk .image none none none none (some (2, 0, 0, 1)) none) none [])
      (str "i.png") true [] = .error (str "Bounding box values must be 0.0-1.0") :=
  ⟨C6_bbox_checked_at_resolve.1 (str "img") _ (2, 0, 0, 1) rfl rfl rfl,
   C6_bbox_checked_at_resolve.2 (str "o") _ (str "i.png") [] 2 0 0 1 rfl
     (by decide)⟩

/-- **C7.**  Evaluating the code at the claim's inputs: a fragment
`lines=5` (single bare number, no `-` and no `,`) leaves `lines` unset
rather than collapsing to `(5, 5)` — the comma branch's single-element
fallback is dead code, reachable only when a comma is present — while a
comma list `lines=5,9` does collapse to (first, last). -/
theorem C7_bare_lines_value_dropped :
    parse_address (str "text://code#lines=5") =
      .ok (str "code", Location.mk .text none none none none none none) ∧
    parse_address (str "text://code#lines=5,9") =
      .ok (str "code", Location.mk .text none (some (5, 9)) none none none none) :=
  ⟨rfl, rfl⟩

/-- **C8.**  For every stored map and every node id absent from the map's
node tree, `resolve` fails with the not-found error whose payload carries
the complete recursive listing of the ids actually present. -/
theorem C8_unknown_node_lists_ids (store : List (Str × RMapM)) (rid nid : Str)
    (m : RMapM) (v : Bool) (hmap : storeGet rid store = some m)
    (hmiss : nid ∉ list_node_ids m) :
    clientResolve store rid nid v = .error (.nodeNotFound nid (list_node_ids m)) := by
  have hnone : get_node m nid = none := (findNode_eq_none_iff nid m.nodes).mpr hmiss
  simp only [clientResolve, hmap, hnone]

/-- The two-node sample map used by `C8_witness`. -/
def c8map : RMapM :=
  RMapM.mk (str "r") .document (str "T") (str "s.pdf") none
    [NodeM.mk (str "a") none (str "sec")
      (Location.mk .document (some [1]) none none none none none) none
      [NodeM.mk (str "a.b") none (str "sub")
        (Location.mk .document (some [2]) none none none none none) none []]]

/-- Closed witness for `C8_unknown_node_lists_ids`: an id absent from a
two-level tree yields the not-found error carrying both present ids. -/
theorem C8_witness :
    storeGet (str "r") [(str "r", c8map)] = some c8map ∧
    str "zzz" ∉ list_node_ids c8map ∧
    clientResolve [(str "r", c8map)] (str "r") (str "zzz") false =
      .error (.nodeNotFound (str "zzz") (list_node_ids c8map)) := by
  have hmiss : str "zzz" ∉ list_node_ids c8map := by
    simp only [list_node_ids, c8map, collectIds]
    decide
  exact ⟨rfl, hmiss,
    C8_unknown_node_lists_ids [(str "r", c8map)] (str "r") (str "zzz") c8map false
      rfl hmiss⟩

/-- **C9 (counterexample).**  The claim says a Location with a payload not
matching its modality cannot be constructed; `models.py` declares no such
validator, and this document-tagged Location carrying only a bbox is a
perfectly constructible value violating the spec's invariant. -/
theorem C9_counterexample :
    ¬ locationInvariant
      (Location.mk .document none none none none (some (0, 0, 1, 1)) none) := by
  intro h
  exact absurd h.2 (by decide)

/-- **C9 (amended).**  `Location` performs no cross-field validation: the
library itself constructs Locations with zero populated payload variants
(`parse` of a fragmentless address), and `build_address` accepts a
payload that does not match the declared modality tag. -/
theorem C9_no_location_validation :
    parse_address (str "doc://book") =
      .ok (str "book", Location.mk .document none none none none none none) ∧
    ¬ locationInvariant (Location.mk .document none none none none none none) ∧
    build_address (str "x")
      (Location.mk .video (some [1]) none none none none none) =
      .ok (str "video://x#pages=1-1") := by
  refine ⟨rfl, ?_, rfl⟩
  intro h
  exact absurd h.1 (by decide)

/-- **C10.**  `build_address` on a document Location whose pages field is
present but empty fails with the validation error (before any fragment is
assembled), while a document Location with pages absent (and no other
payload) builds to the fragmentless `doc://resource_id`. -/
theorem C10_empty_vs_absent_pages (rid : Str) (loc : Location) :
    (loc.modality = .document → loc.pages = some [] →
      build_address rid loc = .error (str "Pages list cannot be empty")) ∧
    (loc.modality = .document → loc.pages = none → loc.lines = none →
      loc.start = none → loc.bbox = none →
      build_address rid loc = .ok (str "doc://" ++ rid)) := by
  constructor
  · intro hmod hpages
    unfold build_address
    rw [hmod, if_neg (by decide : ¬ Modality.document = Modality.virtual), hpages]
    rfl
  · intro hmod hpages hlines hstart hbbox
    unfold build_address
    rw [hmod, if_neg (by decide : ¬ Modality.document = Modality.virtual), hpages,
      hlines, hstart, hbbox, buildLinesPart_none, buildTimePart_none_left,
      buildBboxPart_none]
    rfl

/-- Closed witness for `C10_empty_vs_absent_pages` at resource id
`book`. -/
theorem C10_witness :
    build_address (str "book")
      (Location.mk .document (some []) none none none none none) =
      .error (str "Pages list cannot be empty") ∧
    build_address (str "book")
      (Location.mk .document none none none none none none) =
      .ok (str "doc://" ++ str "book") :=
  ⟨(C10_empty_vs_absent_pages (str "book") _).1 rfl rfl,
   (C10_empty_vs_absent_pages (str "book") _).2 rfl rfl rfl rfl rfl⟩

end Citekit
